import Mathlib

/-!
Verification of the telemetry / decoding core of the ESP8266 battery
dashboard firmware (src/firmware/src/esp8266webbatterycell.ino).

Modelling conventions.
* C `float` scalars are modelled as exact rationals (`ℚ`); the float
  literals 0.001f, 0.01f, 0.05f are idealised as the exact rationals
  1/1000, 1/100, 1/20.  Values that can be NaN or an infinity (only the
  persisted current setpoint, which is read back raw from EEPROM) are
  modelled by the type `FVal` below, on which the C comparisons
  `isnan(v)` and `v < 0` are reproduced exactly.
* C byte buffers are total functions `ℕ → ℕ`; every read of a byte is
  reduced modulo 256, mirroring the `unsigned char` contents.
* The global mutable state of the sketch is the record `St`; the EEPROM
  region is the record `Eeprom` (offset 0 = magic byte, offset 1 = cell
  count byte, offsets 2..5 = the stored 4-byte float, modelled by value).
* Each C function that mutates globals becomes a pure function from the
  old state to the new state.
-/

namespace AutoMaster

/-- Model of a C `float` value: either a NaN, one of the two infinities,
or a finite value (idealised as a rational). -/
inductive FVal where
  | nan : FVal
  | inf : FVal
  | neginf : FVal
  | fin : ℚ → FVal
deriving DecidableEq

/-- The C predicate `isnan(v)`. -/
def FVal.isnan : FVal → Bool
  | .nan => true
  | _ => false

/-- The C comparison `v < 0` (false on NaN, true on negative infinity). -/
def FVal.ltZero : FVal → Bool
  | .nan => false
  | .inf => false
  | .neginf => true
  | .fin q => decide (q < 0)

/-- Source line 73: `clampf4(v, lo, hi) = v < lo ? lo : (v > hi ? hi : v)`. -/
def clampf4 (v lo hi : ℚ) : ℚ :=
  if v < lo then lo else if hi < v then hi else v

/-- The global mutable state of the sketch (source lines 59-67): cell
count, the 32-entry cell-voltage array (as a total function, slots at
index 32 and beyond are never used), the scalar telemetry values, and
the 256-entry per-slave cursor table. -/
structure St where
  activeCellCount : ℕ
  cells : ℕ → ℚ
  temperatureC : ℚ
  balanceCurrentA : ℚ
  packVoltageV : ℚ
  currentSettingA : FVal
  nextCellIndexPerSlave : ℕ → ℕ

/-- Source lines 76-83, `initSimData()` applied to the startup globals:
`cells[i] = 3.90f + 0.06f * (i % 3)`, temperature 29, everything else 0,
all cursors 0; `activeCellCount` keeps its initial value
`DEFAULT_CELLS = 8` (line 59). -/
def initSimData : St where
  activeCellCount := 8
  cells := fun i => 39/10 + (6/100) * ((i % 3 : ℕ) : ℚ)
  temperatureC := 29
  balanceCurrentA := 0
  packVoltageV := 0
  currentSettingA := .fin 0
  nextCellIndexPerSlave := fun _ => 0

/-- Source lines 85-94, `tickSimData()`: each active cell gets
`random(-3, 4) * 0.001f` added and is clamped to [3.60, 4.20]; the
temperature gets `random(-2, 3) * 0.05f` added and is clamped to
[20, 55].  The random draws are passed in explicitly (`dc i` for cell
`i`, `dt` for the temperature); the theorems hold for arbitrary draws,
which covers the actual range of `random`. -/
def tickSimData (s : St) (dc : ℕ → ℤ) (dt : ℤ) : St :=
  { s with
    cells := fun i =>
      if i < s.activeCellCount then
        clampf4 (s.cells i + (dc i : ℚ) * (1/1000)) (360/100) (420/100)
      else s.cells i,
    temperatureC := clampf4 (s.temperatureC + (dt : ℚ) * (1/20)) 20 55 }

/-- Model of the EEPROM region (source lines 44-47): byte at offset 0 is
the magic sentinel (`EEPROM_MAGIC = 0xA5 = 165`), byte at offset 1 is
the cell count, offsets 2..5 hold a 4-byte float (the current setpoint),
modelled here by its value.  Byte fields hold arbitrary naturals; every
read and write goes through `% 256`, mirroring `uint8_t`. -/
structure Eeprom where
  magic : ℕ
  count : ℕ
  current : FVal
deriving DecidableEq

/-- Source lines 455-472, `handleSetCells()`: when the `count` query
argument is present (`some c`, with `toInt` giving an arbitrary integer)
the count is clamped into [1, 32], all 256 per-slave cursors are reset
to 0, the cells at indices [new count, 32) are zeroed, and the magic
byte and count byte are written to EEPROM.  In every case the handler
replies with HTTP status 200 ("OK"), the third component. -/
def handleSetCells (s : St) (e : Eeprom) (arg : Option ℤ) : St × Eeprom × ℕ :=
  match arg with
  | none => (s, e, 200)
  | some c0 =>
    let c1 : ℤ := if c0 < 1 then 1 else c0
    let c2 : ℤ := if 32 < c1 then 32 else c1
    let n : ℕ := c2.toNat
    ({ s with
        activeCellCount := n
        nextCellIndexPerSlave := fun _ => 0
        cells := fun i => if n ≤ i ∧ i < 32 then 0 else s.cells i },
     { e with magic := 165 % 256, count := n % 256 },
     200)

/-- C `round` (round half away from zero), on the non-negative arguments
that actually reach it in the theorems below. -/
def qround (q : ℚ) : ℤ := ⌊q + 1/2⌋

/-- Source lines 475-485, `formatCurrentPayload(currentA, out)`: all 8
bytes zeroed, `out[0] = 0x01`, `out[1] = CAN_SET_FRAME_TYPE = 0x30`,
then `mA = (uint32_t) round(currentA * 1000.0f)` saturated at 0xFFFF and
stored little-endian in bytes 2 and 3.  The `uint32_t` cast of a
negative float is undefined behaviour in C; it is modelled by
`Int.toNat` and the theorems only evaluate the payload at non-negative
inputs. -/
def formatCurrentPayload (currentA : ℚ) : ℕ → ℕ :=
  let mA0 : ℕ := (qround (currentA * 1000)).toNat
  let mA : ℕ := if 65535 < mA0 then 65535 else mA0
  fun i =>
    if i = 0 then 1
    else if i = 1 then 48
    else if i = 2 then mA % 256
    else if i = 3 then (mA / 256) % 256
    else 0

/-- Source lines 498-511, `handleSetCurrent()`: when the `value` query
argument is present, a NaN is replaced by 0, the result is stored in
`currentSettingA` unchanged (no clamping), the magic byte and the
4-byte float are written to EEPROM, and the payload is sent on the CAN
bus.  The handler always replies with HTTP status 200 ("OK"). -/
def handleSetCurrent (s : St) (e : Eeprom) (arg : Option FVal) : St × Eeprom × ℕ :=
  match arg with
  | none => (s, e, 200)
  | some v0 =>
    let v : FVal := if v0.isnan then .fin 0 else v0
    ({ s with currentSettingA := v },
     { e with magic := 165 % 256, current := v },
     200)

/-- The payload that `handleSetCurrent` hands to the CAN transceiver:
the NaN guard of line 501 followed by `formatCurrentPayload` (line 490).
A non-finite value other than NaN has no defined behaviour in the C
encoder and is mapped to 0 here; the theorems never evaluate that case. -/
def sendCurrentPayload (v : FVal) : ℕ → ℕ :=
  formatCurrentPayload
    (match (if v.isnan then FVal.fin 0 else v) with
      | .fin q => q
      | _ => 0)

/-- Source lines 568-581, `loadPrefs()`: if the byte at offset 0 equals
the magic sentinel, the count byte is read and accepted only when it is
in [1, 32] (otherwise `activeCellCount` keeps its prior value), and the
stored float is read into `currentSettingA` and reset to 0 exactly when
`isnan(currentSettingA) || currentSettingA < 0`.  Otherwise (first run)
the in-memory state is left unchanged and the magic byte, the current
count and the current setpoint are written back to EEPROM. -/
def loadPrefs (s : St) (e : Eeprom) : St × Eeprom :=
  if e.magic % 256 = 165 then
    let c := e.count % 256
    let s1 := if 1 ≤ c ∧ c ≤ 32 then { s with activeCellCount := c } else s
    ({ s1 with
        currentSettingA :=
          if e.current.isnan || e.current.ltZero then .fin 0 else e.current },
     e)
  else
    (s, { magic := 165 % 256, count := s.activeCellCount % 256,
          current := s.currentSettingA })

/-- One 16-bit little-endian read from the frame payload (source line
532): `buf[b] | (buf[b+1] << 8)` with byte-sized entries. -/
def burstRead (buf : ℕ → ℕ) (b : ℕ) : ℕ :=
  buf b % 256 + 256 * (buf (b + 1) % 256)

/-- One iteration of the 3-reading loop of a type-0x00 frame (source
lines 529-537): write `raw / 1000` at the running index when it is in
bounds, then advance the index with wraparound at `activeCellCount`. -/
def burstStep (n raw : ℕ) (p : (ℕ → ℚ) × ℕ) : (ℕ → ℚ) × ℕ :=
  (if p.2 < n then Function.update p.1 p.2 ((raw : ℚ) / 1000) else p.1,
   if n ≤ p.2 + 1 then 0 else p.2 + 1)

/-- The whole 3-reading loop with its early exit: reading `k`
(bytes `2+2k` and `3+2k`) is decoded exactly when `2k+3 < len`
(source line 531: `if (b + 1 >= len) break`). -/
def burst (len : ℕ) (buf : ℕ → ℕ) (n : ℕ) (p : (ℕ → ℚ) × ℕ) : (ℕ → ℚ) × ℕ :=
  if 3 < len then
    let p1 := burstStep n (burstRead buf 2) p
    if 5 < len then
      let p2 := burstStep n (burstRead buf 4) p1
      if 7 < len then burstStep n (burstRead buf 6) p2 else p2
    else p1
  else p

/-- Source lines 520-558, the body of the `drainCanMessages()` receive
loop applied to one frame: frames shorter than 2 bytes are dropped;
byte 0 is the slave id and byte 1 the frame type; type 0x00 decodes up
to 3 cell readings starting at the slave's cursor (a stale cursor at or
beyond `activeCellCount` is reset to 0 first, line 528); type 0x08
(length at least 4) sets the balance current to `raw / 1000`; type 0x09
(length at least 4) sets the pack voltage to `raw * 0.01`; type 0x0A
(length at least 3) sets the temperature to byte 2; every other type is
ignored. -/
def decodeFrame (s : St) (len : ℕ) (buf : ℕ → ℕ) : St :=
  if len < 2 then s
  else
    let slave := buf 0 % 256
    let frameType := buf 1 % 256
    if frameType = 0 then
      let idx0 := s.nextCellIndexPerSlave slave
      let idx := if idx0 < s.activeCellCount then idx0 else 0
      let p := burst len buf s.activeCellCount (s.cells, idx)
      { s with
          cells := p.1
          nextCellIndexPerSlave := Function.update s.nextCellIndexPerSlave slave p.2 }
    else if frameType = 8 then
      if 4 ≤ len then { s with balanceCurrentA := (burstRead buf 2 : ℚ) / 1000 } else s
    else if frameType = 9 then
      if 4 ≤ len then { s with packVoltageV := (burstRead buf 2 : ℚ) * (1/100) } else s
    else if frameType = 10 then
      if 3 ≤ len then { s with temperatureC := ((buf 2 % 256 : ℕ) : ℚ) } else s
    else s

/-- The accumulation step of `computeStats` (source lines 100-104):
running total, running minimum (seeded with 100) and running maximum
(seeded with 0). -/
def statsStep (f : ℕ → ℚ) (acc : ℚ × ℚ × ℚ) (i : ℕ) : ℚ × ℚ × ℚ :=
  (acc.1 + f i,
   if f i < acc.2.1 then f i else acc.2.1,
   if acc.2.2 < f i then f i else acc.2.2)

/-- Source lines 97-106, `computeStats`: a single pass over the active
cells; the average is `total / activeCellCount` when the count is
positive.  Result: (total, avg, vmin, vmax). -/
def computeStats (s : St) : ℚ × ℚ × ℚ × ℚ :=
  let r := (List.range s.activeCellCount).foldl (statsStep s.cells) (0, 100, 0)
  (r.1,
   if 0 < s.activeCellCount then r.1 / (s.activeCellCount : ℚ) else 0,
   r.2.1, r.2.2)

/-- Source lines 409-411 in `handleData()`: the reported `total` is the
CAN pack voltage when `packVoltageV > 0.01f`, the computed cell sum
otherwise. -/
def reportedTotal (s : St) : ℚ :=
  if 1/100 < s.packVoltageV then s.packVoltageV else (computeStats s).1

/-- Combined machine state: the in-memory globals plus the EEPROM
region. -/
structure MSt where
  st : St
  ee : Eeprom

/-- The operations that mutate the shared state in the sketch: decoding
one received frame, the two HTTP setter handlers, a preferences load,
and a simulator tick. -/
inductive Op where
  | decode (len : ℕ) (buf : ℕ → ℕ) : Op
  | setCells (arg : Option ℤ) : Op
  | setCurrent (arg : Option FVal) : Op
  | load : Op
  | tick (dc : ℕ → ℤ) (dt : ℤ) : Op

/-- Apply one operation to the machine state. -/
def applyOp (m : MSt) : Op → MSt
  | .decode len buf => ⟨decodeFrame m.st len buf, m.ee⟩
  | .setCells a =>
      let r := handleSetCells m.st m.ee a
      ⟨r.1, r.2.1⟩
  | .setCurrent a =>
      let r := handleSetCurrent m.st m.ee a
      ⟨r.1, r.2.1⟩
  | .load =>
      let r := loadPrefs m.st m.ee
      ⟨r.1, r.2⟩
  | .tick dc dt => ⟨tickSimData m.st dc dt, m.ee⟩

/-- Run a sequence of operations. -/
def run (m : MSt) (ops : List Op) : MSt := ops.foldl applyOp m

/-- The startup sequence of `setup()` (lines 594-595): `initSimData()`
followed by `loadPrefs()`, on an arbitrary initial EEPROM content. -/
def boot (e : Eeprom) : MSt := applyOp ⟨initSimData, e⟩ .load

/-- A machine state is reachable when some operation sequence leads to
it from startup with some initial EEPROM content. -/
def Reachable (m : MSt) : Prop := ∃ e ops, run (boot e) ops = m

/-- The induction invariant for the reachability claims: the cell count
is in bounds, every cursor is strictly below it, and a valid count byte
in EEPROM always agrees with the in-memory count (the EEPROM count is
only ever written from the in-memory value). -/
def Inv (m : MSt) : Prop :=
  1 ≤ m.st.activeCellCount ∧ m.st.activeCellCount ≤ 32 ∧
  (∀ sl, m.st.nextCellIndexPerSlave sl < m.st.activeCellCount) ∧
  (1 ≤ m.ee.count % 256 ∧ m.ee.count % 256 ≤ 32 →
    m.ee.count % 256 = m.st.activeCellCount)

/-- Concrete type-0x00 frame payload used by the C1 witness: slave 0,
frame type 0, readings 0x0FE8 = 4072 mV, 0x0FE9 = 4073 mV,
0x0FEA = 4074 mV. -/
def bufW : ℕ → ℕ :=
  fun i =>
    if i = 2 then 232 else if i = 3 then 15
    else if i = 4 then 233 else if i = 5 then 15
    else if i = 6 then 234 else if i = 7 then 15
    else 0

theorem clampf4_le_hi (v lo hi : ℚ) (h : lo ≤ hi) : clampf4 v lo hi ≤ hi := by
  unfold clampf4
  split
  · exact h
  · split
    · exact le_rfl
    · linarith [not_lt.mp (by assumption : ¬ hi < v)]

theorem le_clampf4 (v lo hi : ℚ) (h : lo ≤ hi) : lo ≤ clampf4 v lo hi := by
  unfold clampf4
  split
  · exact le_rfl
  · split
    · exact h
    · linarith [not_lt.mp (by assumption : ¬ v < lo)]

/-- C8: one simulator tick leaves every active cell voltage in
[3.60, 4.20] and the temperature in [20, 55], for every starting state
(including values already at or outside those bounds) and every choice
of random deltas. -/
theorem tickSimData_bounds (s : St) (dc : ℕ → ℤ) (dt : ℤ) :
    (∀ i, i < s.activeCellCount →
      360/100 ≤ (tickSimData s dc dt).cells i ∧
      (tickSimData s dc dt).cells i ≤ 420/100) ∧
    20 ≤ (tickSimData s dc dt).temperatureC ∧
    (tickSimData s dc dt).temperatureC ≤ 55 := by
  refine ⟨fun i hi => ?_, ?_, ?_⟩
  · simp only [tickSimData, hi, if_pos]
    exact ⟨le_clampf4 _ _ _ (by norm_num), clampf4_le_hi _ _ _ (by norm_num)⟩
  · exact le_clampf4 _ _ _ (by norm_num)
  · exact clampf4_le_hi _ _ _ (by norm_num)

/-- Witness for C8 at a concrete state and concrete deltas. -/
theorem tickSimData_bounds_witness :
    360/100 ≤ (tickSimData initSimData (fun _ => 3) 2).cells 0 ∧
    (tickSimData initSimData (fun _ => 3) 2).cells 0 ≤ 420/100 ∧
    20 ≤ (tickSimData initSimData (fun _ => 3) 2).temperatureC := by
  refine ⟨?_, ?_, ?_⟩
  · exact ((tickSimData_bounds initSimData (fun _ => 3) 2).1 0 (by norm_num [initSimData])).1
  · exact ((tickSimData_bounds initSimData (fun _ => 3) 2).1 0 (by norm_num [initSimData])).2
  · exact (tickSimData_bounds initSimData (fun _ => 3) 2).2.1

/-- C9: a frame shorter than 2 bytes, or one whose type tag (byte 1) is
none of 0x00, 0x08, 0x09, 0x0A, leaves the whole state (telemetry
snapshot and cursor table) unchanged. -/
theorem decodeFrame_ignores (s : St) (len : ℕ) (buf : ℕ → ℕ)
    (h : len < 2 ∨
      (buf 1 % 256 ≠ 0 ∧ buf 1 % 256 ≠ 8 ∧ buf 1 % 256 ≠ 9 ∧ buf 1 % 256 ≠ 10)) :
    decodeFrame s len buf = s := by
  unfold decodeFrame
  rcases h with h | ⟨h0, h8, h9, h10⟩
  · simp [h]
  · by_cases hl : len < 2
    · simp [hl]
    · simp [hl, h0, h8, h9, h10]

/-- Witness for C9: a 1-byte frame and an unknown-type frame, on the
startup state. -/
theorem decodeFrame_ignores_witness :
    decodeFrame initSimData 1 (fun _ => 0) = initSimData ∧
    decodeFrame initSimData 8 (fun _ => 7) = initSimData := by
  constructor
  · exact decodeFrame_ignores initSimData 1 (fun _ => 0) (Or.inl (by norm_num))
  · exact decodeFrame_ignores initSimData 8 (fun _ => 7) (Or.inr (by norm_num))

theorem statsFold_fst (f : ℕ → ℚ) (n : ℕ) :
    ∀ a : ℚ × ℚ × ℚ,
      ((List.range n).foldl (statsStep f) a).1 = a.1 + ∑ i ∈ Finset.range n, f i := by
  induction n with
  | zero => intro a; simp
  | succ n ih =>
    intro a
    rw [List.range_succ, List.foldl_append, List.foldl_cons, List.foldl_nil,
      Finset.sum_range_succ]
    show (statsStep f _ n).1 = _
    rw [statsStep, ih a]
    ring

/-- C10: the `total` value served by the snapshot endpoint is the
CAN-reported pack voltage whenever `packVoltageV > 0.01`, and the sum of
the active cell voltages otherwise. -/
theorem reportedTotal_spec (s : St) :
    (1/100 < s.packVoltageV → reportedTotal s = s.packVoltageV) ∧
    (¬ 1/100 < s.packVoltageV →
      reportedTotal s = ∑ i ∈ Finset.range s.activeCellCount, s.cells i) := by
  have ht : (computeStats s).1 = ∑ i ∈ Finset.range s.activeCellCount, s.cells i := by
    show ((List.range s.activeCellCount).foldl (statsStep s.cells) (0, 100, 0)).1 = _
    rw [statsFold_fst]
    ring
  constructor
  · intro h
    rw [reportedTotal, if_pos h]
  · intro h
    rw [reportedTotal, if_neg h, ht]

/-- Witness for C10 on the startup state, whose pack voltage is 0. -/
theorem reportedTotal_spec_witness :
    reportedTotal initSimData =
      ∑ i ∈ Finset.range initSimData.activeCellCount, initSimData.cells i :=
  (reportedTotal_spec initSimData).2 (by norm_num [initSimData])

theorem wrapSucc (n i : ℕ) (h : i < n) :
    (if n ≤ i + 1 then 0 else i + 1) = (i + 1) % n := by
  rcases Nat.lt_or_ge (i + 1) n with h2 | h2
  · rw [if_neg (by omega), Nat.mod_eq_of_lt h2]
  · have he : i + 1 = n := by omega
    rw [if_pos (by omega), he, Nat.mod_self]

theorem burstStep_eq (n raw : ℕ) (cells : ℕ → ℚ) (i : ℕ) (h : i < n) :
    burstStep n raw (cells, i) =
      (Function.update cells i ((raw : ℚ) / 1000), (i + 1) % n) := by
  unfold burstStep
  dsimp only
  rw [if_pos h, wrapSucc n i h]

theorem burstStep_snd_lt (n raw : ℕ) (p : (ℕ → ℚ) × ℕ) (hn : 1 ≤ n) :
    (burstStep n raw p).2 < n := by
  unfold burstStep
  dsimp only
  split
  · omega
  · omega

theorem burstStep_fst_ge (n raw : ℕ) (p : (ℕ → ℚ) × ℕ) (i : ℕ) (h : n ≤ i) :
    (burstStep n raw p).1 i = p.1 i := by
  unfold burstStep
  dsimp only
  split
  · exact Function.update_noteq (by omega) _ _
  · rfl

theorem burst_snd_lt (len : ℕ) (buf : ℕ → ℕ) (n : ℕ) (p : (ℕ → ℚ) × ℕ)
    (hn : 1 ≤ n) (hp : p.2 < n) : (burst len buf n p).2 < n := by
  unfold burst
  split
  · split
    · split
      · exact burstStep_snd_lt _ _ _ hn
      · exact burstStep_snd_lt _ _ _ hn
    · exact burstStep_snd_lt _ _ _ hn
  · exact hp

theorem burst_fst_ge (len : ℕ) (buf : ℕ → ℕ) (n : ℕ) (p : (ℕ → ℚ) × ℕ)
    (i : ℕ) (h : n ≤ i) : (burst len buf n p).1 i = p.1 i := by
  unfold burst
  split
  · split
    · split
      · rw [burstStep_fst_ge _ _ _ _ h, burstStep_fst_ge _ _ _ _ h,
          burstStep_fst_ge _ _ _ _ h]
      · rw [burstStep_fst_ge _ _ _ _ h, burstStep_fst_ge _ _ _ _ h]
    · rw [burstStep_fst_ge _ _ _ _ h]
  · rfl

theorem decodeFrame_type0_eq (s : St) (len : ℕ) (buf : ℕ → ℕ)
    (hl : ¬ len < 2) (ht : buf 1 % 256 = 0) :
    decodeFrame s len buf =
      { s with
        cells := (burst len buf s.activeCellCount
          (s.cells,
            if s.nextCellIndexPerSlave (buf 0 % 256) < s.activeCellCount
            then s.nextCellIndexPerSlave (buf 0 % 256) else 0)).1,
        nextCellIndexPerSlave :=
          Function.update s.nextCellIndexPerSlave (buf 0 % 256)
            (burst len buf s.activeCellCount
              (s.cells,
                if s.nextCellIndexPerSlave (buf 0 % 256) < s.activeCellCount
                then s.nextCellIndexPerSlave (buf 0 % 256) else 0)).2 } := by
  unfold decodeFrame
  rw [if_neg hl, ht]
  rfl

theorem decodeFrame_activeCellCount (s : St) (len : ℕ) (buf : ℕ → ℕ) :
    (decodeFrame s len buf).activeCellCount = s.activeCellCount := by
  unfold decodeFrame
  dsimp only
  repeat' split
  all_goals rfl

theorem decodeFrame_cells_ge (s : St) (len : ℕ) (buf : ℕ → ℕ) (i : ℕ)
    (h : s.activeCellCount ≤ i) : (decodeFrame s len buf).cells i = s.cells i := by
  unfold decodeFrame
  dsimp only
  repeat' split
  all_goals first
    | rfl
    | exact burst_fst_ge _ _ _ _ _ h

theorem decodeFrame_cursor_lt (s : St) (len : ℕ) (buf : ℕ → ℕ) (sl : ℕ)
    (hn : 1 ≤ s.activeCellCount)
    (hc : ∀ t, s.nextCellIndexPerSlave t < s.activeCellCount) :
    (decodeFrame s len buf).nextCellIndexPerSlave sl < s.activeCellCount := by
  unfold decodeFrame
  dsimp only
  repeat' split
  all_goals try dsimp only
  all_goals try exact hc sl
  all_goals rcases eq_or_ne sl (buf 0 % 256) with he | he
  all_goals try (rw [Function.update_noteq he]; exact hc sl)
  all_goals subst he
  all_goals rw [Function.update_same]
  all_goals apply burst_snd_lt _ _ _ _ hn
  all_goals dsimp only
  all_goals assumption

/-- C3: the set-cell-count handler clamps the requested count into
[1, 32], resets all per-slave cursors to 0 and zeroes every cell slot at
or beyond the new count, so that a subsequent type-0x00 frame for any
slave starts writing at index 0. -/
theorem handleSetCells_spec (s : St) (e : Eeprom) (c : ℤ) :
    (((handleSetCells s e (some c)).1.activeCellCount : ℤ) = max 1 (min 32 c)) ∧
    (∀ sl, (handleSetCells s e (some c)).1.nextCellIndexPerSlave sl = 0) ∧
    (∀ i, (handleSetCells s e (some c)).1.activeCellCount ≤ i → i < 32 →
      (handleSetCells s e (some c)).1.cells i = 0) ∧
    (∀ buf, buf 1 % 256 = 0 →
      (decodeFrame (handleSetCells s e (some c)).1 4 buf).cells 0
        = (burstRead buf 2 : ℚ) / 1000) := by
  refine ⟨?_, fun sl => rfl, fun i h1 h2 => ?_, fun buf ht => ?_⟩
  · show ((if 32 < (if c < 1 then 1 else c) then 32
        else if c < 1 then 1 else c).toNat : ℤ) = max 1 (min 32 c)
    split_ifs <;> omega
  · show (if (handleSetCells s e (some c)).1.activeCellCount ≤ i ∧ i < 32
        then (0 : ℚ) else s.cells i) = 0
    rw [if_pos ⟨h1, h2⟩]
  · have hn : 1 ≤ (handleSetCells s e (some c)).1.activeCellCount := by
      show 1 ≤ (if 32 < (if c < 1 then 1 else c) then 32
        else if c < 1 then 1 else c).toNat
      split_ifs <;> omega
    rw [decodeFrame_type0_eq _ _ _ (by omega) ht]
    show (burst 4 buf _ (_, if (0 : ℕ) < _ then 0 else 0)).1 0 = _
    rw [if_pos (by omega : (0 : ℕ) < (handleSetCells s e (some c)).1.activeCellCount)]
    unfold burst
    rw [if_pos (by omega : 3 < 4), if_neg (by omega : ¬ 5 < 4),
      burstStep_eq _ _ _ 0 hn]
    dsimp only
    rw [Function.update_same]

/-- Witness for C3 at count request 40 (clamped to 32) and 12. -/
theorem handleSetCells_spec_witness :
    ((handleSetCells initSimData ⟨0, 0, .fin 0⟩ (some 40)).1.activeCellCount : ℤ) = 32 ∧
    (handleSetCells initSimData ⟨0, 0, .fin 0⟩ (some 12)).1.nextCellIndexPerSlave 7 = 0 ∧
    (handleSetCells initSimData ⟨0, 0, .fin 0⟩ (some 12)).1.cells 20 = 0 ∧
    (decodeFrame (handleSetCells initSimData ⟨0, 0, .fin 0⟩ (some 12)).1 4 bufW).cells 0
      = 4072 / 1000 := by
  refine ⟨?_, ?_, ?_, ?_⟩
  · have h := (handleSetCells_spec initSimData ⟨0, 0, .fin 0⟩ 40).1
    rw [h]; norm_num
  · exact (handleSetCells_spec initSimData ⟨0, 0, .fin 0⟩ 12).2.1 7
  · refine (handleSetCells_spec initSimData ⟨0, 0, .fin 0⟩ 12).2.2.1 20 ?_ (by norm_num)
    have h := (handleSetCells_spec initSimData ⟨0, 0, .fin 0⟩ 12).1
    omega
  · have h := (handleSetCells_spec initSimData ⟨0, 0, .fin 0⟩ 12).2.2.2 bufW (by decide)
    rw [h]
    norm_num [burstRead, bufW]

theorem mod_double_cases (n a : ℕ) (h : a < 2 * n) :
    a % n = a ∧ a < n ∨ a % n = a - n ∧ n ≤ a := by
  rcases Nat.lt_or_ge a n with h1 | h1
  · exact Or.inl ⟨Nat.mod_eq_of_lt h1, h1⟩
  · refine Or.inr ⟨?_, h1⟩
    rw [Nat.mod_eq_sub_mod h1, Nat.mod_eq_of_lt (by omega)]

theorem pos_ne (n c0 j k : ℕ) (hn3 : 3 ≤ n) (hc : c0 < n) (hj : j < 3) (hk : k < 3)
    (hjk : j ≠ k) : (c0 + j) % n ≠ (c0 + k) % n := by
  have h1 := mod_double_cases n (c0 + j) (by omega)
  have h2 := mod_double_cases n (c0 + k) (by omega)
  rcases h1 with ⟨e1, l1⟩ | ⟨e1, l1⟩ <;> rcases h2 with ⟨e2, l2⟩ | ⟨e2, l2⟩ <;>
    rw [e1, e2] <;> omega

theorem burst_char (len : ℕ) (buf : ℕ → ℕ) (n c0 : ℕ) (cells : ℕ → ℚ)
    (hn : 1 ≤ n) (hc : c0 < n) :
    (burst len buf n (cells, c0)).2 = (c0 + min 3 ((len - 2) / 2)) % n ∧
    (3 ≤ n → ∀ j, j < min 3 ((len - 2) / 2) →
      (burst len buf n (cells, c0)).1 ((c0 + j) % n)
        = (burstRead buf (2 + 2 * j) : ℚ) / 1000) ∧
    (∀ i, (∀ j, j < min 3 ((len - 2) / 2) → i ≠ (c0 + j) % n) →
      (burst len buf n (cells, c0)).1 i = cells i) := by
  have hn0 : 0 < n := hn
  have hcc : (c0 + 0) % n = c0 := by rw [Nat.add_zero, Nat.mod_eq_of_lt hc]
  by_cases h3 : 3 < len
  case neg =>
    have hm : min 3 ((len - 2) / 2) = 0 := by omega
    rw [hm]
    unfold burst
    rw [if_neg h3]
    exact ⟨by rw [Nat.add_zero, Nat.mod_eq_of_lt hc],
      fun _ j hj => absurd hj (by omega), fun i _ => rfl⟩
  case pos =>
  by_cases h5 : 5 < len
  case neg =>
    have hm : min 3 ((len - 2) / 2) = 1 := by omega
    rw [hm]
    unfold burst
    rw [if_pos h3, if_neg h5, burstStep_eq _ _ _ _ hc]
    dsimp only
    refine ⟨rfl, fun hn3 j hj => ?_, fun i hi => ?_⟩
    · have hj0 : j = 0 := by omega
      subst hj0
      rw [hcc, Function.update_same]
    · have h0 := hi 0 (by omega)
      rw [hcc] at h0
      rw [Function.update_noteq h0]
  case pos =>
  have hq2 : ((c0 + 1) % n + 1) % n = (c0 + 2) % n := by
    rw [Nat.mod_add_mod]
  by_cases h7 : 7 < len
  case neg =>
    have hm : min 3 ((len - 2) / 2) = 2 := by omega
    rw [hm]
    unfold burst
    rw [if_pos h3, if_pos h5, if_neg h7, burstStep_eq _ _ _ _ hc,
      burstStep_eq _ _ _ _ (Nat.mod_lt _ hn0)]
    dsimp only
    rw [hq2]
    refine ⟨rfl, fun hn3 j hj => ?_, fun i hi => ?_⟩
    · have hj01 : j = 0 ∨ j = 1 := by omega
      rcases hj01 with hj0 | hj1
      · subst hj0
        have h01 := pos_ne n c0 0 1 hn3 hc (by omega) (by omega) (by omega)
        rw [hcc] at h01
        rw [hcc, Function.update_noteq h01, Function.update_same]
      · subst hj1
        rw [Function.update_same]
        try norm_num
    · have h0 := hi 0 (by omega)
      rw [hcc] at h0
      have h1 := hi 1 (by omega)
      rw [Function.update_noteq h1, Function.update_noteq h0]
  case pos =>
    have hm : min 3 ((len - 2) / 2) = 3 := by omega
    rw [hm]
    unfold burst
    rw [if_pos h3, if_pos h5, if_pos h7, burstStep_eq _ _ _ _ hc,
      burstStep_eq _ _ _ _ (Nat.mod_lt _ hn0)]
    try dsimp only
    rw [hq2, burstStep_eq _ _ _ _ (Nat.mod_lt _ hn0)]
    try dsimp only
    have hq3 : ((c0 + 2) % n + 1) % n = (c0 + 3) % n := by
      rw [Nat.mod_add_mod]
    rw [hq3]
    refine ⟨rfl, fun hn3 j hj => ?_, fun i hi => ?_⟩
    · have hj012 : j = 0 ∨ j = 1 ∨ j = 2 := by omega
      have h01 := pos_ne n c0 0 1 hn3 hc (by omega) (by omega) (by omega)
      have h02 := pos_ne n c0 0 2 hn3 hc (by omega) (by omega) (by omega)
      have h12 := pos_ne n c0 1 2 hn3 hc (by omega) (by omega) (by omega)
      rw [hcc] at h01 h02
      rcases hj012 with hj0 | hj1 | hj2
      · subst hj0
        rw [hcc, Function.update_noteq h02, Function.update_noteq h01,
          Function.update_same]
      · subst hj1
        rw [Function.update_noteq h12, Function.update_same]
        try norm_num
      · subst hj2
        rw [Function.update_same]
        try norm_num
    · have h0 := hi 0 (by omega)
      rw [hcc] at h0
      have h1 := hi 1 (by omega)
      have h2 := hi 2 (by omega)
      rw [Function.update_noteq h2, Function.update_noteq h1,
        Function.update_noteq h0]

/-- C1: decoding a type-0x00 frame for a slave with a valid cursor
writes the present readings (reading j carries bytes 2+2j and 3+2j,
little-endian millivolts, present exactly when both bytes are within
`len`) as `raw / 1000` volts at the cursor position and the following
positions wrapping modulo `activeCellCount`, advances that slave's
cursor by the number of decoded readings modulo `activeCellCount`
(3 for a full 8-byte frame), and leaves every other cell and every
other slave's cursor unchanged; a truncated frame keeps the readings
already decoded and stops at the first incomplete reading. -/
theorem decodeFrame_type0 (s : St) (len : ℕ) (buf : ℕ → ℕ)
    (hlen : 2 ≤ len) (htype : buf 1 % 256 = 0)
    (hn : 1 ≤ s.activeCellCount)
    (hcur : s.nextCellIndexPerSlave (buf 0 % 256) < s.activeCellCount) :
    (decodeFrame s len buf).nextCellIndexPerSlave (buf 0 % 256)
        = (s.nextCellIndexPerSlave (buf 0 % 256) + min 3 ((len - 2) / 2))
            % s.activeCellCount ∧
    (3 ≤ s.activeCellCount → ∀ j, j < min 3 ((len - 2) / 2) →
      (decodeFrame s len buf).cells
          ((s.nextCellIndexPerSlave (buf 0 % 256) + j) % s.activeCellCount)
        = (burstRead buf (2 + 2 * j) : ℚ) / 1000) ∧
    (∀ i, (∀ j, j < min 3 ((len - 2) / 2) →
        i ≠ (s.nextCellIndexPerSlave (buf 0 % 256) + j) % s.activeCellCount) →
      (decodeFrame s len buf).cells i = s.cells i) ∧
    (decodeFrame s len buf).activeCellCount = s.activeCellCount ∧
    (∀ sl, sl ≠ buf 0 % 256 →
      (decodeFrame s len buf).nextCellIndexPerSlave sl
        = s.nextCellIndexPerSlave sl) := by
  rw [decodeFrame_type0_eq s len buf (by omega) htype, if_pos hcur]
  dsimp only
  obtain ⟨h1, h2, h3⟩ := burst_char len buf s.activeCellCount
    (s.nextCellIndexPerSlave (buf 0 % 256)) s.cells hn hcur
  exact ⟨by rw [Function.update_same, h1], h2, h3, rfl,
    fun sl hsl => Function.update_noteq hsl _ _⟩

/-- Witness for C1: the startup state, slave 0, a full 8-byte frame
with readings 4072, 4073, 4074 millivolts. -/
theorem decodeFrame_type0_witness :
    (decodeFrame initSimData 8 bufW).nextCellIndexPerSlave 0 = 3 ∧
    (decodeFrame initSimData 8 bufW).cells 1 = 4073 / 1000 := by
  obtain ⟨h1, h2, h3, h4, h5⟩ := decodeFrame_type0 initSimData 8 bufW
    (by norm_num) (by decide) (by decide) (by decide)
  constructor
  · have h1' := h1
    norm_num [bufW, initSimData] at h1'
    exact h1'
  · have h2' := h2 (by decide) 1 (by norm_num)
    norm_num [bufW, initSimData, burstRead] at h2'
    exact h2'

theorem inv_boot (e : Eeprom) : Inv (boot e) := by
  unfold boot applyOp
  dsimp only
  unfold Inv loadPrefs
  dsimp only
  by_cases hm : e.magic % 256 = 165
  · rw [if_pos hm]
    by_cases hcv : 1 ≤ e.count % 256 ∧ e.count % 256 ≤ 32
    · rw [if_pos hcv]
      dsimp only
      refine ⟨hcv.1, hcv.2, fun sl => ?_, fun _ => rfl⟩
      show (0 : ℕ) < e.count % 256
      omega
    · rw [if_neg hcv]
      dsimp only
      exact ⟨by norm_num [initSimData], by norm_num [initSimData],
        fun sl => by norm_num [initSimData], fun hx => absurd hx hcv⟩
  · rw [if_neg hm]
    dsimp only
    exact ⟨by norm_num [initSimData], by norm_num [initSimData],
      fun sl => by norm_num [initSimData], fun _ => by norm_num [initSimData]⟩

theorem inv_applyOp (m : MSt) (op : Op) (h : Inv m) : Inv (applyOp m op) := by
  obtain ⟨h1, h2, h3, h4⟩ := h
  cases op with
  | decode len buf =>
    refine ⟨?_, ?_, fun sl => ?_, fun hx => ?_⟩
    · show 1 ≤ (decodeFrame m.st len buf).activeCellCount
      rw [decodeFrame_activeCellCount]
      exact h1
    · show (decodeFrame m.st len buf).activeCellCount ≤ 32
      rw [decodeFrame_activeCellCount]
      exact h2
    · show (decodeFrame m.st len buf).nextCellIndexPerSlave sl
        < (decodeFrame m.st len buf).activeCellCount
      rw [decodeFrame_activeCellCount]
      exact decodeFrame_cursor_lt m.st len buf sl h1 h3
    · show m.ee.count % 256 = (decodeFrame m.st len buf).activeCellCount
      rw [decodeFrame_activeCellCount]
      exact h4 hx
  | setCells a =>
    cases a with
    | none => exact ⟨h1, h2, h3, h4⟩
    | some c =>
      refine ⟨?_, ?_, fun sl => ?_, fun hx => ?_⟩
      all_goals dsimp only [applyOp, handleSetCells]
      all_goals split_ifs <;> omega
  | setCurrent a =>
    cases a with
    | none => exact ⟨h1, h2, h3, h4⟩
    | some v => exact ⟨h1, h2, h3, h4⟩
  | load =>
    dsimp only [applyOp]
    unfold Inv loadPrefs
    by_cases hm : m.ee.magic % 256 = 165
    · rw [if_pos hm]
      dsimp only
      by_cases hcv : 1 ≤ m.ee.count % 256 ∧ m.ee.count % 256 ≤ 32
      · rw [if_pos hcv]
        dsimp only
        have he := h4 hcv
        refine ⟨hcv.1, hcv.2, fun sl => ?_, fun _ => rfl⟩
        show m.st.nextCellIndexPerSlave sl < m.ee.count % 256
        rw [he]
        exact h3 sl
      · rw [if_neg hcv]
        try dsimp only
        exact ⟨h1, h2, h3, h4⟩
    · rw [if_neg hm]
      try dsimp only
      refine ⟨h1, h2, h3, fun hx => ?_⟩
      show m.st.activeCellCount % 256 % 256 = m.st.activeCellCount
      omega
  | tick dc dt => exact ⟨h1, h2, h3, h4⟩

theorem inv_run (ops : List Op) : ∀ m, Inv m → Inv (run m ops) := by
  induction ops with
  | nil => intro m h; exact h
  | cons op ops ih => intro m h; exact ih _ (inv_applyOp m op h)

/-- C2: in every machine state reachable from startup by any sequence of
decode, set-cell-count, set-current, load and tick operations, the cell
count is in [1, 32] and every per-slave cursor is strictly below it; in
particular a type-0x00 decode never changes a cell at an index at or
beyond `activeCellCount` (the last conjunct holds for the reachable
state even though a stale cursor is sanitised to 0 at decode time). -/
theorem reachable_invariant (m : MSt) (h : Reachable m) :
    (1 ≤ m.st.activeCellCount ∧ m.st.activeCellCount ≤ 32) ∧
    (∀ sl, m.st.nextCellIndexPerSlave sl < m.st.activeCellCount) ∧
    (∀ len buf i, m.st.activeCellCount ≤ i →
      (decodeFrame m.st len buf).cells i = m.st.cells i) := by
  obtain ⟨e, ops, rfl⟩ := h
  have hi := inv_run ops _ (inv_boot e)
  exact ⟨⟨hi.1, hi.2.1⟩, hi.2.2.1,
    fun len buf i hge => decodeFrame_cells_ge _ _ _ i hge⟩

/-- Witness for C2 at the state reached by booting on an EEPROM whose
magic byte is already valid. -/
theorem reachable_invariant_witness :
    1 ≤ (boot ⟨165, 8, .fin 0⟩).st.activeCellCount ∧
    (boot ⟨165, 8, .fin 0⟩).st.nextCellIndexPerSlave 0
      < (boot ⟨165, 8, .fin 0⟩).st.activeCellCount := by
  have h := reachable_invariant (boot ⟨165, 8, .fin 0⟩) ⟨⟨165, 8, .fin 0⟩, [], rfl⟩
  exact ⟨h.1.1, h.2.1 0⟩

/-- C4: saving cell count 12 and current setpoint 42.5 through the two
handlers and then running load() yields count 12 and setpoint 42.5
again, for any starting state and EEPROM content; and load() on a
region whose magic byte does not match leaves the startup in-memory
defaults unchanged and writes them, with the magic byte, back to
storage. -/
theorem prefs_roundtrip (s s2 : St) (e : Eeprom) :
    ((loadPrefs s2 (handleSetCurrent (handleSetCells s e (some 12)).1
        (handleSetCells s e (some 12)).2.1 (some (.fin (85/2)))).2.1).1.activeCellCount
      = 12 ∧
     (loadPrefs s2 (handleSetCurrent (handleSetCells s e (some 12)).1
        (handleSetCells s e (some 12)).2.1 (some (.fin (85/2)))).2.1).1.currentSettingA
      = .fin (85/2)) ∧
    (∀ e2 : Eeprom, e2.magic % 256 ≠ 165 →
      loadPrefs initSimData e2 = (initSimData, ⟨165 % 256, 8 % 256, .fin 0⟩)) := by
  refine ⟨⟨?_, ?_⟩, fun e2 h2 => ?_⟩
  · rfl
  · show (if ((FVal.fin (85/2)).isnan || (FVal.fin (85/2)).ltZero) = true
        then FVal.fin 0 else FVal.fin (85/2)) = FVal.fin (85/2)
    rw [if_neg]
    simp only [FVal.isnan, FVal.ltZero, Bool.false_or, decide_eq_true_eq]
    norm_num
  · unfold loadPrefs
    rw [if_neg h2]
    rfl

/-- Witness for C4: concrete startup state and concrete EEPROM contents
on both sides of the conjunction. -/
theorem prefs_roundtrip_witness :
    (loadPrefs initSimData (handleSetCurrent
        (handleSetCells initSimData ⟨0, 0, .fin 0⟩ (some 12)).1
        (handleSetCells initSimData ⟨0, 0, .fin 0⟩ (some 12)).2.1
        (some (.fin (85/2)))).2.1).1.activeCellCount = 12 ∧
    loadPrefs initSimData ⟨0, 0, .fin 0⟩ = (initSimData, ⟨165 % 256, 8 % 256, .fin 0⟩) := by
  refine ⟨(prefs_roundtrip initSimData initSimData ⟨0, 0, .fin 0⟩).1.1, ?_⟩
  exact (prefs_roundtrip initSimData initSimData ⟨0, 0, .fin 0⟩).2
    ⟨0, 0, .fin 0⟩ (by norm_num)

/-- C5: the set-current payload has header bytes 0x01, 0x30, zero tail
bytes, and bytes 2-3 carry the input in milliamps, rounded, saturated at
0xFFFF, little-endian; 65 A encodes as 65000, anything above 65.535 A
saturates to 0xFFFF, and a NaN request (replaced by 0 before encoding)
yields zero bytes.  The hypothesis restricts to non-negative inputs,
where the C cast is defined. -/
theorem formatCurrentPayload_spec (q : ℚ) (hq : 0 ≤ q) :
    (formatCurrentPayload q 0 = 1 ∧ formatCurrentPayload q 1 = 48 ∧
     formatCurrentPayload q 4 = 0 ∧ formatCurrentPayload q 5 = 0 ∧
     formatCurrentPayload q 6 = 0 ∧ formatCurrentPayload q 7 = 0) ∧
    (formatCurrentPayload q 2 + 256 * formatCurrentPayload q 3
        = min (qround (q * 1000)).toNat 65535) ∧
    (formatCurrentPayload 65 2 + 256 * formatCurrentPayload 65 3 = 65000) ∧
    (65535/1000 < q →
      formatCurrentPayload q 2 = 255 ∧ formatCurrentPayload q 3 = 255) ∧
    (sendCurrentPayload .nan 2 = 0 ∧ sendCurrentPayload .nan 3 = 0) := by
  refine ⟨⟨rfl, rfl, rfl, rfl, rfl, rfl⟩, ?_, ?_, fun hsat => ?_, ?_⟩
  · show (if 65535 < (qround (q * 1000)).toNat then 65535
        else (qround (q * 1000)).toNat) % 256
      + 256 * ((if 65535 < (qround (q * 1000)).toNat then 65535
        else (qround (q * 1000)).toNat) / 256 % 256)
      = min (qround (q * 1000)).toNat 65535
    by_cases h : 65535 < (qround (q * 1000)).toNat
    · rw [if_pos h]
      omega
    · rw [if_neg h]
      omega
  · have h65 : qround ((65 : ℚ) * 1000) = 65000 := by
      rw [qround]
      norm_num
    show (if 65535 < (qround ((65 : ℚ) * 1000)).toNat then 65535
        else (qround ((65 : ℚ) * 1000)).toNat) % 256
      + 256 * ((if 65535 < (qround ((65 : ℚ) * 1000)).toNat then 65535
        else (qround ((65 : ℚ) * 1000)).toNat) / 256 % 256) = 65000
    rw [h65]
    have htn : ((65000 : ℤ)).toNat = 65000 := rfl
    rw [htn, if_neg (by norm_num)]
  · have h1 : (65535 : ℚ) < q * 1000 := by
      have h2 := (div_lt_iff₀ (by norm_num : (0 : ℚ) < 1000)).mp hsat
      linarith
    have h2 : (65535 : ℤ) ≤ qround (q * 1000) := by
      rw [qround]
      refine Int.le_floor.mpr ?_
      push_cast
      linarith
    have h3 : 65535 ≤ (qround (q * 1000)).toNat := by omega
    have hk : (if 65535 < (qround (q * 1000)).toNat then 65535
        else (qround (q * 1000)).toNat) = 65535 := by
      split_ifs <;> omega
    constructor
    · show (if 65535 < (qround (q * 1000)).toNat then 65535
          else (qround (q * 1000)).toNat) % 256 = 255
      rw [hk]
    · show (if 65535 < (qround (q * 1000)).toNat then 65535
          else (qround (q * 1000)).toNat) / 256 % 256 = 255
      rw [hk]
  · constructor <;>
      norm_num [sendCurrentPayload, formatCurrentPayload, qround, FVal.isnan]

/-- Witness for C5 at inputs 65 and 66. -/
theorem formatCurrentPayload_spec_witness :
    formatCurrentPayload 65 0 = 1 ∧
    formatCurrentPayload 65 2 + 256 * formatCurrentPayload 65 3 = 65000 ∧
    formatCurrentPayload 66 2 = 255 := by
  refine ⟨(formatCurrentPayload_spec 65 (by norm_num)).1.1,
    (formatCurrentPayload_spec 65 (by norm_num)).2.2.1, ?_⟩
  exact ((formatCurrentPayload_spec 66 (by norm_num)).2.2.2.1 (by norm_num)).1

/-- C6 counterexample: a stored setpoint of positive infinity passes the
`isnan(v) || v < 0` check of `loadPrefs` and is kept, while the claim
says every non-finite stored value is reset to 0. -/
theorem loadPrefs_keeps_posinf :
    (loadPrefs initSimData ⟨165, 12, .inf⟩).1.currentSettingA = FVal.inf ∧
    FVal.inf ≠ FVal.fin 0 := by
  exact ⟨rfl, by decide⟩

/-- C6 (amended): with a matching magic byte, load() accepts the stored
count only when it is in [1, 32] (otherwise the prior value is kept),
resets the stored setpoint to 0 exactly when it is NaN or compares below
zero (negative finite values and negative infinity), and keeps every
other stored value, including positive infinity; the EEPROM itself is
unchanged. -/
theorem loadPrefs_validation (s : St) (e : Eeprom) (hm : e.magic % 256 = 165) :
    (loadPrefs s e).2 = e ∧
    (1 ≤ e.count % 256 ∧ e.count % 256 ≤ 32 →
      (loadPrefs s e).1.activeCellCount = e.count % 256) ∧
    (¬ (1 ≤ e.count % 256 ∧ e.count % 256 ≤ 32) →
      (loadPrefs s e).1.activeCellCount = s.activeCellCount) ∧
    ((e.current.isnan = true ∨ e.current.ltZero = true) →
      (loadPrefs s e).1.currentSettingA = .fin 0) ∧
    (e.current.isnan = false → e.current.ltZero = false →
      (loadPrefs s e).1.currentSettingA = e.current) := by
  unfold loadPrefs
  rw [if_pos hm]
  dsimp only
  refine ⟨rfl, fun hv => ?_, fun hv => ?_, fun hv => ?_, fun hn1 hn2 => ?_⟩
  · show (if 1 ≤ e.count % 256 ∧ e.count % 256 ≤ 32
        then { s with activeCellCount := e.count % 256 } else s).activeCellCount
      = e.count % 256
    rw [if_pos hv]
  · show (if 1 ≤ e.count % 256 ∧ e.count % 256 ≤ 32
        then { s with activeCellCount := e.count % 256 } else s).activeCellCount
      = s.activeCellCount
    rw [if_neg hv]
  · have hb : (e.current.isnan || e.current.ltZero) = true := by
      rcases hv with h | h <;> simp [h]
    rw [if_pos hb]
  · have hb : ¬ ((e.current.isnan || e.current.ltZero) = true) := by
      simp [hn1, hn2]
    rw [if_neg hb]

/-- Witness for the amended C6: an invalid stored count (40) is ignored
and a negative stored setpoint is reset to 0. -/
theorem loadPrefs_validation_witness :
    (loadPrefs initSimData ⟨165, 40, .fin (-3)⟩).1.activeCellCount
      = initSimData.activeCellCount ∧
    (loadPrefs initSimData ⟨165, 40, .fin (-3)⟩).1.currentSettingA = .fin 0 := by
  refine ⟨(loadPrefs_validation initSimData ⟨165, 40, .fin (-3)⟩
    (by norm_num)).2.2.1 (by norm_num), ?_⟩
  exact (loadPrefs_validation initSimData ⟨165, 40, .fin (-3)⟩
    (by norm_num)).2.2.2.1 (Or.inr (by decide))

/-- C7 counterexample: a set-current request with value -1 stores -1
unchanged, while the claim says out-of-range values are clamped to the
nearest valid value (0). -/
theorem handleSetCurrent_no_clamp :
    (handleSetCurrent initSimData ⟨0, 0, .fin 0⟩ (some (.fin (-1)))).1.currentSettingA
      = FVal.fin (-1) ∧ FVal.fin (-1) ≠ FVal.fin 0 := by
  exact ⟨rfl, by decide⟩

/-- C7 (amended): a set-current request always completes with HTTP
status 200 and no error; a NaN value is replaced by 0, while every other
value (negative values included) is stored unchanged, without clamping;
a negative persisted setpoint is only sanitised to 0 by a later
load(). -/
theorem handleSetCurrent_spec (s : St) (e : Eeprom) (v : FVal) :
    ((handleSetCurrent s e (some v)).2.2 = 200) ∧
    ((handleSetCurrent s e none).2.2 = 200) ∧
    ((handleSetCurrent s e (some v)).1.currentSettingA
       = if v.isnan then .fin 0 else v) ∧
    (∀ q : ℚ, q < 0 → v = .fin q →
      (loadPrefs (handleSetCurrent s e (some v)).1
        (handleSetCurrent s e (some v)).2.1).1.currentSettingA = .fin 0) := by
  refine ⟨rfl, rfl, rfl, fun q hq hv => ?_⟩
  subst hv
  show (if ((FVal.fin q).isnan || (FVal.fin q).ltZero) = true
      then FVal.fin 0 else FVal.fin q) = FVal.fin 0
  rw [if_pos]
  show (false || decide (q < 0)) = true
  simp [hq]

/-- Witness for the amended C7 at setpoint -2. -/
theorem handleSetCurrent_spec_witness :
    (handleSetCurrent initSimData ⟨0, 0, .fin 0⟩ (some (.fin (-2)))).2.2 = 200 ∧
    (loadPrefs (handleSetCurrent initSimData ⟨0, 0, .fin 0⟩ (some (.fin (-2)))).1
      (handleSetCurrent initSimData ⟨0, 0, .fin 0⟩ (some (.fin (-2)))).2.1).1.currentSettingA
      = .fin 0 := by
  refine ⟨(handleSetCurrent_spec initSimData ⟨0, 0, .fin 0⟩ (.fin (-2))).1, ?_⟩
  exact (handleSetCurrent_spec initSimData ⟨0, 0, .fin 0⟩ (.fin (-2))).2.2.2
    (-2) (by norm_num) rfl

end AutoMaster
